import Mathlib

/-!
Verification development for the PostHog terraform provider's resource
reconciliation adapter (`internal/posthog` and `internal/provider`).

The Go code is embedded shallowly:

* machine integers (`uint64`) become `Nat` with explicit `2 ^ 64` bounds where
  overflow matters;
* Go slices, which distinguish `nil` from an empty slice, become
  `Option (List _)` where that distinction is observable (the create request
  payloads), and plain `List _` elsewhere;
* fallible operations return `Except`/`Option`;
* the HTTP transport is abstracted: a call is a pure function of the request
  the client builds and of the `HttpResponse` the remote returns.  JSON
  encoding/decoding of the success body is abstracted as the raw body string;
  the literal `null` body substituted on the 404-as-absence path decodes to a
  `nil` pointer, embedded as `none`.
-/

namespace PosthogProvider

/-! ### HTTP client core, from internal/posthog/api.go -/

/-- An HTTP response as seen by `Client.do`: its status code and raw body. -/
structure HttpResponse where
  statusCode : Nat
  body : String
deriving DecidableEq

/-- Embeds the `apiRequest` struct of api.go.  `input = none` models a Go
`nil` `Input` (no request body); `I` is the type of the JSON-encoded input.
`outputNilIf404` is the `OutputNilIf404` flag. -/
structure ApiRequestOf (I : Type) where
  method : String
  path : String
  expectedCode : Nat
  input : Option I
  outputNilIf404 : Bool := false

/-- The error message built by `Client.do` on a status mismatch, carrying the
expected code, the observed code and the raw response body. -/
def statusErrorMessage (expected observed : Nat) (body : String) : String :=
  "unexpected HTTP status code, expected " ++ toString expected ++ ", got "
    ++ toString observed ++ " (server response: " ++ body ++ ")"

/-- Embeds the status dispatch of `Client.do` (api.go lines 66-84).
`Except.ok none` is the 404-as-absence path, where the body is replaced by the
literal `null` and the output pointer therefore decodes to `nil`;
`Except.ok (some body)` is the expected-status path, where the output is
decoded from the actual body. -/
def clientDo (r : ApiRequestOf I) (resp : HttpResponse) : Except String (Option String) :=
  if r.outputNilIf404 = true ∧ resp.statusCode = 404 then
    Except.ok none
  else if resp.statusCode ≠ r.expectedCode then
    Except.error (statusErrorMessage r.expectedCode resp.statusCode resp.body)
  else
    Except.ok (some resp.body)

/-! ### Identifier types, from api_project.go and api_action.go

`ProjectID` and `ActionID` are both `uint64` in Go; both are embedded as `Nat`
values below `2 ^ 64`.  Parsing embeds `strconv.ParseUint(s, 10, 64)`, which
scans the string left to right, fails with a syntax error (returning value 0)
on the first non-digit byte, and fails with a range error (returning
`2 ^ 64 - 1`) as soon as the accumulated value would exceed 64 bits.  The
second component of the result is `true` exactly when `err == nil` in Go. -/

/-- Scanning loop of `strconv.ParseUint` for base 10, bit size 64. -/
def goParseUint64Aux : Nat → List Char → Nat × Bool
  | n, [] => (n, true)
  | n, c :: cs =>
    if c.isDigit then
      if n * 10 + (c.toNat - 48) ≥ 2 ^ 64 then (2 ^ 64 - 1, false)
      else goParseUint64Aux (n * 10 + (c.toNat - 48)) cs
    else (0, false)

/-- Embeds `strconv.ParseUint(s, 10, 64)`: the returned value and whether the
parse succeeded (no error). -/
def goParseUint64 (s : String) : Nat × Bool :=
  if s.data = [] then (0, false) else goParseUint64Aux 0 s.data

/-- Decimal digits of `n`, most significant first, computed with explicit
fuel so that the definition is structurally recursive: with fuel above `n`
this is the digit loop of `strconv.FormatUint(n, 10)`. -/
def natToDigitsAux (fuel n : Nat) : List Char :=
  match fuel with
  | 0 => []
  | fuel + 1 =>
    if n < 10 then [Char.ofNat (48 + n)]
    else natToDigitsAux fuel (n / 10) ++ [Char.ofNat (48 + n % 10)]

/-- Decimal digits of `n`, most significant first: the loop of
`strconv.FormatUint(n, 10)`.  The fuel `n + 1` always suffices, since each
division by ten strictly decreases the value. -/
def natToDigits (n : Nat) : List Char := natToDigitsAux (n + 1) n

/-- Embeds `strconv.FormatUint(n, 10)`, the body of `ProjectID.String` and
`ActionID.String`. -/
def formatUint (n : Nat) : String := String.mk (natToDigits n)

/-- Embeds `posthog.ProjectID.String` (api_project.go). -/
def projectIDString (n : Nat) : String := formatUint n

/-- Embeds `posthog.ProjectIDFromString` (api_project.go): the parsed value
and whether parsing succeeded. -/
def ProjectIDFromString (s : String) : Nat × Bool := goParseUint64 s

/-- Embeds `posthog.ActionID.String` (api_action.go). -/
def actionIDString (n : Nat) : String := formatUint n

/-- Embeds `posthog.ActionIDFromString` (api_action.go). -/
def ActionIDFromString (s : String) : Nat × Bool := goParseUint64 s

/-- Embeds `url.PathEscape`.  The client only ever passes decimal renderings
of unsigned integers, and decimal digits are unreserved characters
(RFC 3986 section 2.3) which `PathEscape` leaves unchanged, so on every input
occurring in this development it is the identity. -/
def pathEscape (s : String) : String := s

/-! ### Read operations with 404-as-absence, from api_action.go and
api_project.go -/

/-- The request built by `Client.GetAction` (api_action.go lines 132-142). -/
def GetActionGo (projectID actionID : Nat) : ApiRequestOf Unit :=
  { method := "GET"
    path := "/projects/" ++ pathEscape (projectIDString projectID) ++ "/actions/"
      ++ pathEscape (actionIDString actionID)
    expectedCode := 200
    input := none
    outputNilIf404 := true }

/-- `Client.GetAction` as a function of the remote response. -/
def getAction (projectID actionID : Nat) (resp : HttpResponse) :
    Except String (Option String) :=
  clientDo (GetActionGo projectID actionID) resp

/-- The request built by `Client.GetProject` (api_project.go lines 133-143). -/
def GetProjectGo (projectID : Nat) : ApiRequestOf Unit :=
  { method := "GET"
    path := "/projects/" ++ pathEscape (projectIDString projectID)
    expectedCode := 200
    input := none
    outputNilIf404 := true }

/-- `Client.GetProject` as a function of the remote response. -/
def getProject (projectID : Nat) (resp : HttpResponse) :
    Except String (Option String) :=
  clientDo (GetProjectGo projectID) resp

/-! ### Action step model, from api_action.go and action_resource.go -/

/-- The `TextMatching` string enum of api_action.go; its values are `"exact"`,
`"contains"`, `"regex"`, with the empty string as the unset zero value. -/
abbrev TextMatching := String

/-- Embeds the `posthog.ActionStep` struct (api_action.go lines 74-94).
Unset optional fields hold the Go zero value `""`. -/
structure ActionStep where
  id : String
  event : String
  url : String
  urlMatching : TextMatching
  text : String
  textMatching : TextMatching
  href : String
  hrefMatching : TextMatching
  selector : String
deriving DecidableEq

/-- Embeds the `matchableValue` struct of action_resource.go. -/
structure matchableValue where
  value : String
  matching : TextMatching
deriving DecidableEq

/-- Embeds the `matchCustomEvent` struct of action_resource.go. -/
structure matchCustomEvent where
  id : String
  event : String
deriving DecidableEq

/-- Embeds the `matchPageViewEvent` struct of action_resource.go. -/
structure matchPageViewEvent where
  id : String
  url : matchableValue
deriving DecidableEq

/-- Embeds the `matchAutocaptureEvent` struct of action_resource.go. -/
structure matchAutocaptureEvent where
  id : String
  url : matchableValue
  elementText : matchableValue
  linkHref : matchableValue
  selector : String
deriving DecidableEq

/-- The autocapture branch of the step loop in `updateActionModel`
(action_resource.go lines 279-286). -/
def autocaptureOfStep (ev : ActionStep) : matchAutocaptureEvent :=
  { id := ev.id
    url := { value := ev.url, matching := ev.urlMatching }
    elementText := { value := ev.text, matching := ev.textMatching }
    linkHref := { value := ev.href, matching := ev.hrefMatching }
    selector := ev.selector }

/-- The page-view branch of the step loop in `updateActionModel`
(action_resource.go lines 287-291). -/
def pageViewOfStep (ev : ActionStep) : matchPageViewEvent :=
  { id := ev.id, url := { value := ev.url, matching := ev.urlMatching } }

/-- The default (custom event) branch of the step loop in `updateActionModel`
(action_resource.go line 293). -/
def customOfStep (ev : ActionStep) : matchCustomEvent :=
  { id := ev.id, event := ev.event }

/-- Embeds the remote-to-local step partition of `updateActionModel`
(action_resource.go lines 272-295): one pass over the flat step list,
switching on the `event` field — exact match `"$autocapture"`, exact match
`"$pageview"`, anything else a custom event — appending to three lists in
encounter order. -/
def partitionSteps : List ActionStep →
    List matchCustomEvent × List matchPageViewEvent × List matchAutocaptureEvent
  | [] => ([], [], [])
  | ev :: rest =>
    let r := partitionSteps rest
    if ev.event = "$autocapture" then (r.1, r.2.1, autocaptureOfStep ev :: r.2.2)
    else if ev.event = "$pageview" then (r.1, pageViewOfStep ev :: r.2.1, r.2.2)
    else (customOfStep ev :: r.1, r.2.1, r.2.2)

/-- The custom-event step built by `actionFromModel` (action_resource.go
lines 495-497): only `ID` and `Event` are set, every other field keeps the Go
zero value `""`. -/
def customEventStep (ev : matchCustomEvent) : ActionStep :=
  { id := ev.id, event := ev.event, url := "", urlMatching := "", text := ""
    textMatching := "", href := "", hrefMatching := "", selector := "" }

/-- The page-view step built by `actionFromModel` (action_resource.go lines
508-515). -/
def pageViewStep (ev : matchPageViewEvent) : ActionStep :=
  { id := ev.id, event := "$pageview", url := ev.url.value
    urlMatching := ev.url.matching, text := "", textMatching := ""
    href := "", hrefMatching := "", selector := "" }

/-- The autocapture step built by `actionFromModel` (action_resource.go lines
526-538). -/
def autocaptureStep (ev : matchAutocaptureEvent) : ActionStep :=
  { id := ev.id, event := "$autocapture", url := ev.url.value
    urlMatching := ev.url.matching, text := ev.elementText.value
    textMatching := ev.elementText.matching, href := ev.linkHref.value
    hrefMatching := ev.linkHref.matching, selector := ev.selector }

/-- Embeds the local-to-remote flattening of `actionFromModel`: the three
append loops produce exactly the concatenation custom events, then page
views, then autocaptures. -/
def flattenSteps (customs : List matchCustomEvent) (pageViews : List matchPageViewEvent)
    (autocaptures : List matchAutocaptureEvent) : List ActionStep :=
  customs.map customEventStep ++ pageViews.map pageViewStep
    ++ autocaptures.map autocaptureStep

/-- Remote-to-local partition followed by local-to-remote flattening. -/
def stepsRoundTrip (steps : List ActionStep) : List ActionStep :=
  flattenSteps (partitionSteps steps).1 (partitionSteps steps).2.1
    (partitionSteps steps).2.2

/-- The step is routed to the autocapture list by `updateActionModel`. -/
def isAutocaptureStep (s : ActionStep) : Prop := s.event = "$autocapture"

/-- The step is routed to the page-view list by `updateActionModel`. -/
def isPageViewStep (s : ActionStep) : Prop := s.event = "$pageview"

/-- The step is routed to the custom-event list by `updateActionModel`. -/
def isCustomEventStep (s : ActionStep) : Prop :=
  s.event ≠ "$autocapture" ∧ s.event ≠ "$pageview"

/-- A custom-event step carries only the fields the custom-event shape keeps
(event name and step id); the remaining fields are unset. -/
def customEventStepFields (s : ActionStep) : Prop :=
  s.url = "" ∧ s.urlMatching = "" ∧ s.text = "" ∧ s.textMatching = ""
    ∧ s.href = "" ∧ s.hrefMatching = "" ∧ s.selector = ""

/-- A page-view step carries only the fields the page-view shape keeps (step
id and URL matcher); the remaining fields are unset. -/
def pageViewStepFields (s : ActionStep) : Prop :=
  s.text = "" ∧ s.textMatching = "" ∧ s.href = "" ∧ s.hrefMatching = ""
    ∧ s.selector = ""

instance (s : ActionStep) : Decidable (isAutocaptureStep s) :=
  inferInstanceAs (Decidable (s.event = "$autocapture"))

instance (s : ActionStep) : Decidable (isPageViewStep s) :=
  inferInstanceAs (Decidable (s.event = "$pageview"))

instance (s : ActionStep) : Decidable (isCustomEventStep s) :=
  inferInstanceAs (Decidable (s.event ≠ "$autocapture" ∧ s.event ≠ "$pageview"))

instance (s : ActionStep) : Decidable (customEventStepFields s) :=
  inferInstanceAs (Decidable (s.url = "" ∧ s.urlMatching = "" ∧ s.text = ""
    ∧ s.textMatching = "" ∧ s.href = "" ∧ s.hrefMatching = "" ∧ s.selector = ""))

instance (s : ActionStep) : Decidable (pageViewStepFields s) :=
  inferInstanceAs (Decidable (s.text = "" ∧ s.textMatching = "" ∧ s.href = ""
    ∧ s.hrefMatching = "" ∧ s.selector = ""))

/-! ### Import identifier parsing, from action_resource.go -/

/-- Scanning loop for the first separator, as `strings.SplitN(s, sep, 2)`
does for a one-character separator: `none` when the separator does not occur,
otherwise the text before the first occurrence and everything after it. -/
def splitFirstSlashAux : List Char → List Char → Option (List Char × List Char)
  | _, [] => none
  | acc, c :: rest =>
    if c = '/' then some (acc.reverse, rest) else splitFirstSlashAux (c :: acc) rest

/-- Embeds `strings.SplitN(s, "/", 2)` restricted to what `parseImportID`
observes: `none` when the split yields a single token (no separator), and the
two tokens otherwise. -/
def splitN2Slash (s : String) : Option (String × String) :=
  match splitFirstSlashAux [] s.data with
  | none => none
  | some (a, b) => some (String.mk a, String.mk b)

/-- Embeds `parseImportID` (action_resource.go lines 596-613): split the
combined identifier on the first `/`, then parse each half with the numeric
identifier parser.  Pure: no network call is involved. -/
def parseImportID (s : String) : Except String (Nat × Nat) :=
  match splitN2Slash s with
  | none => Except.error "ID not of the form PROJECT_ID/ACTION_ID"
  | some (t0, t1) =>
    match ProjectIDFromString t0 with
    | (_, false) => Except.error "invalid project ID"
    | (projectID, true) =>
      match ActionIDFromString t1 with
      | (_, false) => Except.error "invalid action ID"
      | (actionID, true) => Except.ok (projectID, actionID)

/-! ### ImportState, from action_resource.go and project_resource.go -/

/-- What `actionResource.ImportState` leaves in its response: whether the
diagnostics carry an error and which state attributes were written.
`SetAttribute` on these plain string attributes never itself adds a
diagnostic. -/
structure ActionImportStateResponse where
  diagsHasError : Bool
  attrId : Option String
  attrProjectId : Option String
deriving DecidableEq

/-- Embeds `actionResource.ImportState` (action_resource.go lines 615-627).
On a parse failure `parseImportID` returns the zero identifiers together with
the error; the function adds the error diagnostic without returning, writes
the `id` attribute, and only then consults `Diagnostics.HasError()` before
writing `project_id`. -/
def actionImportState (reqID : String) : ActionImportStateResponse :=
  let parsed := parseImportID reqID
  let ids := match parsed with
    | Except.ok v => v
    | Except.error _ => (0, 0)
  let hasErr := match parsed with
    | Except.ok _ => false
    | Except.error _ => true
  let afterId : ActionImportStateResponse :=
    { diagsHasError := hasErr, attrId := some (actionIDString ids.2)
      attrProjectId := none }
  if afterId.diagsHasError then afterId
  else { afterId with attrProjectId := some (projectIDString ids.1) }

/-- What `projectResource.ImportState` leaves in its response. -/
structure ProjectImportStateResponse where
  diagsHasError : Bool
  attrId : Option String
deriving DecidableEq

/-- Embeds `projectResource.ImportState` (project_resource.go lines 452-459):
parse the bare identifier, add an error diagnostic on failure without
returning, and write the `id` attribute with the string rendering of whatever
value the parse returned. -/
def projectImportState (reqID : String) : ProjectImportStateResponse :=
  let p := ProjectIDFromString reqID
  { diagsHasError := !p.2, attrId := some (projectIDString p.1) }

/-! ### The Action API type and its client operations, from api_action.go -/

/-- Embeds the `posthog.Action` struct (api_action.go lines 60-72).  `Tags`
and `Steps` are Go slices, whose `nil` value is distinguishable from an empty
slice, hence `Option (List _)`.  The two `time.Time` fields are opaque here
and carried as strings. -/
structure GoAction where
  id : Nat
  name : String
  description : String
  tags : Option (List String)
  postToSlack : Bool
  slackMessageFormat : String
  steps : Option (List ActionStep)
  deleted : Bool
  isCalculating : Bool
  createdAt : String
  lastCalculatedAt : String
deriving DecidableEq

/-- Embeds `nilSliceToEmpty` (api_action.go lines 96-100): a `nil` slice
becomes an empty one, any other slice is left alone. -/
def nilSliceToEmpty (v : Option (List α)) : Option (List α) :=
  match v with
  | none => some []
  | some l => some l

/-- Embeds the `posthog.CreateActionStepRequest` struct (api_action.go lines
28-47): an `ActionStep` without the server-assigned id. -/
structure CreateActionStepRequest where
  event : String
  url : String
  urlMatching : TextMatching
  text : String
  textMatching : TextMatching
  href : String
  hrefMatching : TextMatching
  selector : String
deriving DecidableEq

/-- Embeds the `posthog.CreateActionRequest` struct (api_action.go lines
11-18). -/
structure CreateActionRequest where
  name : String
  description : String
  tags : Option (List String)
  postToSlack : Bool
  slackMessageFormat : String
  steps : Option (List CreateActionStepRequest)
deriving DecidableEq

/-- The request built by `Client.CreateAction` (api_action.go lines 102-115):
normalize the two list fields, then POST expecting 201. -/
def CreateActionGo (projectID : Nat) (a : CreateActionRequest) :
    ApiRequestOf CreateActionRequest :=
  let a := { a with tags := nilSliceToEmpty a.tags, steps := nilSliceToEmpty a.steps }
  { method := "POST"
    path := "/projects/" ++ pathEscape (projectIDString projectID) ++ "/actions"
    expectedCode := 201
    input := some a
    outputNilIf404 := false }

/-- The request built by `Client.UpdateAction` (api_action.go lines 117-130):
normalize the two list fields, then PATCH the full action expecting 200. -/
def UpdateActionGo (projectID : Nat) (a : GoAction) : ApiRequestOf GoAction :=
  let a := { a with tags := nilSliceToEmpty a.tags, steps := nilSliceToEmpty a.steps }
  { method := "PATCH"
    path := "/projects/" ++ pathEscape (projectIDString projectID) ++ "/actions/"
      ++ pathEscape (actionIDString a.id)
    expectedCode := 200
    input := some a
    outputNilIf404 := false }

/-! ### The action resource model and its delete flow, from
action_resource.go -/

/-- Embeds `actionResourceModel` (action_resource.go lines 40-51) in its
fully-known state: the terraform values are carried as the plain strings,
booleans and lists they hold. -/
structure ActionResourceModel where
  id : String
  projectId : String
  name : String
  description : String
  tags : List String
  postToWebhook : Bool
  webhookMessageFormat : String
  matchCustomEvents : List matchCustomEvent
  matchPageViews : List matchPageViewEvent
  matchAutocaptures : List matchAutocaptureEvent
deriving DecidableEq

/-- A sequence of Go `append`s into a slice that starts `nil` leaves the
slice `nil` exactly when nothing was appended. -/
def goSliceOfList (l : List α) : Option (List α) :=
  match l with
  | [] => none
  | x :: xs => some (x :: xs)

/-- Embeds `actionFromModel` (action_resource.go lines 460-541): parse the
two identifiers (failing with the attribute-specific diagnostic before any
network call), then build the full remote action.  The step list is the
flattening custom events, then page views, then autocaptures; fields the Go
function never assigns (`PostToSlack`, `SlackMessageFormat`, `Deleted`,
`IsCalculating`, the timestamps) keep their zero values; `ElementsAs` decodes
the tags into an allocated (non-nil) slice. -/
def actionFromModel (data : ActionResourceModel) : Except String (Nat × GoAction) :=
  match ProjectIDFromString data.projectId with
  | (_, false) => Except.error "Invalid project ID"
  | (projectID, true) =>
    match ActionIDFromString data.id with
    | (_, false) => Except.error "Invalid action ID"
    | (actionID, true) =>
      Except.ok (projectID,
        { id := actionID
          name := data.name
          description := data.description
          tags := some data.tags
          postToSlack := false
          slackMessageFormat := ""
          steps := goSliceOfList
            (flattenSteps data.matchCustomEvents data.matchPageViews data.matchAutocaptures)
          deleted := false
          isCalculating := false
          createdAt := ""
          lastCalculatedAt := "" })

/-- The single HTTP request issued by `actionResource.Delete`
(action_resource.go lines 573-594): the action rebuilt from state with its
`deleted` flag set to `true`, sent through `Client.UpdateAction`. -/
def actionResourceDeleteRequest (data : ActionResourceModel) :
    Except String (ApiRequestOf GoAction) :=
  match actionFromModel data with
  | Except.error e => Except.error e
  | Except.ok (projectID, action) =>
    Except.ok (UpdateActionGo projectID { action with deleted := true })

/-- The overall outcome of `actionResource.Delete` given the remote response:
the updated action returned by the remote is discarded, so a successful
outcome carries no data. -/
def actionResourceDelete (data : ActionResourceModel) (resp : HttpResponse) :
    Except String Unit :=
  match actionFromModel data with
  | Except.error e => Except.error e
  | Except.ok (projectID, action) =>
    match clientDo (UpdateActionGo projectID { action with deleted := true }) resp with
    | Except.error e => Except.error e
    | Except.ok _ => Except.ok ()

/-! ### The Project API type and its client operations, from
api_project.go -/

/-- Embeds the `posthog.Project` struct (api_project.go lines 59-83).  The
list fields' `nil`-ness is never observed on this type (they are only read,
or normalized before an update), so they are carried as plain lists; the
`time.Time` fields are opaque strings. -/
structure GoProject where
  id : Nat
  name : String
  autocaptureOptOut : Bool
  timezone : String
  appURLs : List String
  dataAttributes : List String
  personDisplayNameProperties : List String
  slackIncomingWebhook : String
  anonymizeIPs : Bool
  toolbarMode : String
  capturePerformanceOptIn : Bool
  captureConsoleLogOptIn : Bool
  sessionRecordingOptIn : Bool
  sessionRecordingVersion : String
  recordingDomains : List String
  accessControl : Bool
  apiToken : String
  completedSnippetOnboarding : Bool
  createdAt : String
  updatedAt : String
deriving DecidableEq

/-- Embeds `Project.UnmarshalJSON` (api_project.go lines 85-97): after the
raw fields are decoded, an empty toolbar mode — sometimes omitted by the
remote on reads — is backfilled to `"toolbar"`. -/
def unmarshalProject (p : GoProject) : GoProject :=
  if p.toolbarMode = "" then { p with toolbarMode := "toolbar" } else p

/-- Embeds the `posthog.CreateProjectRequest` struct (api_project.go lines
37-57), with its four slice fields as `Option (List _)`. -/
structure CreateProjectRequest where
  name : String
  autocaptureOptOut : Bool
  timezone : String
  appURLs : Option (List String)
  dataAttributes : Option (List String)
  personDisplayNameProperties : Option (List String)
  slackIncomingWebhook : String
  anonymizeIPs : Bool
  toolbarMode : String
  capturePerformanceOptIn : Bool
  captureConsoleLogOptIn : Bool
  sessionRecordingOptIn : Bool
  sessionRecordingVersion : String
  recordingDomains : Option (List String)
  accessControl : Bool
  completedSnippetOnboarding : Bool
deriving DecidableEq

/-- The request built by `Client.CreateProject` (api_project.go lines
99-114): normalize the four list fields, then POST expecting 201. -/
def CreateProjectGo (p : CreateProjectRequest) : ApiRequestOf CreateProjectRequest :=
  let p := { p with
    appURLs := nilSliceToEmpty p.appURLs
    dataAttributes := nilSliceToEmpty p.dataAttributes
    personDisplayNameProperties := nilSliceToEmpty p.personDisplayNameProperties
    recordingDomains := nilSliceToEmpty p.recordingDomains }
  { method := "POST"
    path := "/projects/"
    expectedCode := 201
    input := some p
    outputNilIf404 := false }

/-! ### The project resource model, from project_resource.go -/

/-- Embeds `sortedStrings` (action_resource.go lines 255-259): copy the list
and sort it lexicographically, as `sort.Strings` does. -/
def sortedStrings (strs : List String) : List String :=
  strs.mergeSort (fun a b => decide (a ≤ b))

/-- Embeds `projectResourceModel` (project_resource.go lines 36-54) in its
fully-known state. -/
structure ProjectResourceModel where
  id : String
  name : String
  disableAutocapture : Bool
  timezone : String
  authorizedURLs : List String
  dataAttributes : List String
  personDisplayNameProperties : List String
  webhookURL : String
  anonymizeIPs : Bool
  enableToolbar : Bool
  recordUserSessions : Bool
  captureConsoleLogs : Bool
  captureNetworkPerformance : Bool
  useSessionRecorderV2 : Bool
  authorizedSessionRecordingURLs : List String
  enableAccessControl : Bool
  apiToken : String
deriving DecidableEq

/-- Embeds `updateProjectModel` (project_resource.go lines 195-235).  The Go
function overwrites every field of the passed model, so it is a function of
the remote project alone: list settings are sorted, the toolbar mode string
collapses to the `enable_toolbar` boolean by comparison with `"toolbar"`, and
the recording version collapses to `use_session_recorder_v2` by comparison
with `"v2"`. -/
def updateProjectModel (apiProject : GoProject) : ProjectResourceModel :=
  { id := projectIDString apiProject.id
    name := apiProject.name
    disableAutocapture := apiProject.autocaptureOptOut
    timezone := apiProject.timezone
    authorizedURLs := sortedStrings apiProject.appURLs
    dataAttributes := sortedStrings apiProject.dataAttributes
    personDisplayNameProperties := sortedStrings apiProject.personDisplayNameProperties
    webhookURL := apiProject.slackIncomingWebhook
    anonymizeIPs := apiProject.anonymizeIPs
    enableToolbar := decide (apiProject.toolbarMode = "toolbar")
    recordUserSessions := apiProject.sessionRecordingOptIn
    captureConsoleLogs := apiProject.captureConsoleLogOptIn
    captureNetworkPerformance := apiProject.capturePerformanceOptIn
    useSessionRecorderV2 := decide (apiProject.sessionRecordingVersion = "v2")
    authorizedSessionRecordingURLs := sortedStrings apiProject.recordingDomains
    enableAccessControl := apiProject.accessControl
    apiToken := apiProject.apiToken }

/-- Running value of the digit-scanning fold: `digitsVal n l` extends the
already-accumulated value `n` with the digits of `l`. -/
def digitsVal (n : Nat) (l : List Char) : Nat :=
  l.foldl (fun a c => a * 10 + (c.toNat - 48)) n

/-- A remote project read response whose toolbar mode was omitted. -/
def sampleRawProject : GoProject :=
  { id := 1, name := "t", autocaptureOptOut := false, timezone := "UTC"
    appURLs := [], dataAttributes := [], personDisplayNameProperties := []
    slackIncomingWebhook := "", anonymizeIPs := false, toolbarMode := ""
    capturePerformanceOptIn := true, captureConsoleLogOptIn := true
    sessionRecordingOptIn := true, sessionRecordingVersion := "v2"
    recordingDomains := [], accessControl := false, apiToken := "tok"
    completedSnippetOnboarding := true, createdAt := "", updatedAt := "" }

/-- A concrete custom-event step (only the fields of its shape set). -/
def sampleCustomStep : ActionStep :=
  { id := "1", event := "signup", url := "", urlMatching := "", text := ""
    textMatching := "", href := "", hrefMatching := "", selector := "" }

/-- A concrete page-view step (only the fields of its shape set). -/
def samplePageViewStep : ActionStep :=
  { id := "2", event := "$pageview", url := "/home", urlMatching := "exact"
    text := "", textMatching := "", href := "", hrefMatching := ""
    selector := "" }

/-- A concrete autocapture step. -/
def sampleAutocaptureStep : ActionStep :=
  { id := "3", event := "$autocapture", url := "/signup"
    urlMatching := "contains", text := "Sign up", textMatching := "exact"
    href := "", hrefMatching := "", selector := ".button" }

/-- A custom-event step that also carries a URL matcher, which the local
custom-event shape cannot represent. -/
def customStepWithURL : ActionStep :=
  { id := "1", event := "signup", url := "https://x", urlMatching := "exact"
    text := "", textMatching := "", href := "", hrefMatching := ""
    selector := "" }

/-- A concrete action state used to exercise the delete flow. -/
def sampleActionState : ActionResourceModel :=
  { id := "5", projectId := "42", name := "My action", description := ""
    tags := ["a"], postToWebhook := false, webhookMessageFormat := ""
    matchCustomEvents := [{ id := "7", event := "signup" }]
    matchPageViews := [], matchAutocaptures := [] }

/-! ### Theorems for claims C2 and C9 -/

/-- C2: for every Read (`GetAction` or `GetProject`) call, which requests
404-as-absence semantics, a response with status 404 yields an absence signal
(a `nil` result, no error), and a response with any other unexpected status
yields an error. -/
theorem read_404_is_absence (projectID actionID : Nat) (resp other : HttpResponse)
    (h404 : resp.statusCode = 404)
    (hne : other.statusCode ≠ 200) (hne404 : other.statusCode ≠ 404) :
    getAction projectID actionID resp = Except.ok none ∧
    getProject projectID resp = Except.ok none ∧
    getAction projectID actionID other
      = Except.error (statusErrorMessage 200 other.statusCode other.body) ∧
    getProject projectID other
      = Except.error (statusErrorMessage 200 other.statusCode other.body) := by
  refine ⟨?_, ?_, ?_, ?_⟩ <;>
    simp [getAction, getProject, GetActionGo, GetProjectGo, clientDo, h404, hne, hne404]

/-- Witness for `read_404_is_absence` at concrete inputs. -/
theorem read_404_is_absence_witness :
    getAction 1 2 ⟨404, "gone"⟩ = Except.ok none ∧
    getProject 1 ⟨404, "gone"⟩ = Except.ok none ∧
    getAction 1 2 ⟨500, "boom"⟩
      = Except.error (statusErrorMessage 200 500 "boom") ∧
    getProject 1 ⟨500, "boom"⟩
      = Except.error (statusErrorMessage 200 500 "boom") :=
  read_404_is_absence 1 2 ⟨404, "gone"⟩ ⟨500, "boom"⟩ rfl (by decide) (by decide)

/-- C9: for every API request whose response status differs from the expected
success code and which is not on the 404-as-absence path, `Client.do` fails
with an error carrying the expected code, the observed code and the raw
response body. -/
theorem do_status_mismatch_error {I : Type} (r : ApiRequestOf I) (resp : HttpResponse)
    (hne : resp.statusCode ≠ r.expectedCode)
    (h404 : ¬ (r.outputNilIf404 = true ∧ resp.statusCode = 404)) :
    clientDo r resp
      = Except.error (statusErrorMessage r.expectedCode resp.statusCode resp.body) := by
  simp only [clientDo, if_neg h404, if_pos hne]

/-- Witness for `do_status_mismatch_error` at a concrete request/response. -/
theorem do_status_mismatch_error_witness :
    clientDo (I := Unit)
        { method := "POST", path := "/projects/", expectedCode := 201,
          input := none, outputNilIf404 := false }
        ⟨400, "bad request"⟩
      = Except.error (statusErrorMessage 201 400 "bad request") :=
  do_status_mismatch_error _ _ (by decide) (by decide)

/-! ### Theorems for claim C3 -/

/-- C3: decoding a Project read response backfills an omitted toolbar mode to
`"toolbar"` (making the local `enable_toolbar` boolean true) and never leaves
it empty; and the local boolean is true exactly when the (possibly
backfilled) remote toolbar mode equals `"toolbar"`, any other value mapping
to false. -/
theorem toolbar_mode_backfilled (raw : GoProject) :
    (unmarshalProject raw).toolbarMode ≠ "" ∧
    (raw.toolbarMode = "" → (unmarshalProject raw).toolbarMode = "toolbar"
      ∧ (updateProjectModel (unmarshalProject raw)).enableToolbar = true) ∧
    ((updateProjectModel (unmarshalProject raw)).enableToolbar = true
      ↔ (unmarshalProject raw).toolbarMode = "toolbar") := by
  by_cases h : raw.toolbarMode = "" <;>
    simp [unmarshalProject, updateProjectModel, h]

/-- Witness for `toolbar_mode_backfilled` on a read response omitting the
toolbar mode. -/
theorem toolbar_mode_backfilled_witness :
    (unmarshalProject sampleRawProject).toolbarMode = "toolbar"
      ∧ (updateProjectModel (unmarshalProject sampleRawProject)).enableToolbar = true :=
  (toolbar_mode_backfilled sampleRawProject).2.1 rfl

/-! ### Theorems for claim C5 -/

/-- Helper: the separator scan finds nothing when no character is a slash. -/
theorem splitFirstSlashAux_of_no_slash (l : List Char) (acc : List Char)
    (h : ∀ c ∈ l, c ≠ '/') : splitFirstSlashAux acc l = none := by
  induction l generalizing acc with
  | nil => rfl
  | cons c rest ih =>
    have hc : c ≠ '/' := h c (by simp)
    simp only [splitFirstSlashAux, if_neg hc]
    exact ih _ fun d hd => h d (by simp [hd])

/-- Helper: the separator scan splits at the first slash. -/
theorem splitFirstSlashAux_of_slash (a b : List Char) (acc : List Char)
    (h : ∀ c ∈ a, c ≠ '/') :
    splitFirstSlashAux acc (a ++ '/' :: b) = some (acc.reverse ++ a, b) := by
  induction a generalizing acc with
  | nil => simp [splitFirstSlashAux]
  | cons c rest ih =>
    have hc : c ≠ '/' := h c (by simp)
    have step : splitFirstSlashAux acc (c :: (rest ++ '/' :: b))
        = splitFirstSlashAux (c :: acc) (rest ++ '/' :: b) := by
      simp only [splitFirstSlashAux, if_neg hc]
    calc splitFirstSlashAux acc ((c :: rest) ++ '/' :: b)
        = splitFirstSlashAux (c :: acc) (rest ++ '/' :: b) := step
      _ = some ((c :: acc).reverse ++ rest, b) :=
          ih _ fun d hd => h d (by simp [hd])
      _ = some (acc.reverse ++ c :: rest, b) := by simp

/-- C5: an action import identifier is split on the first `/` and each half
is parsed with the numeric identifier parser; the operation fails when the
separator is missing or either half fails to parse; `42/7` imports as
project 42 and action 7, while `42` fails with the formatting error. -/
theorem import_id_splits_on_first_slash (s a b : String)
    (hs : ∀ c ∈ s.data, c ≠ '/') (ha : ∀ c ∈ a.data, c ≠ '/') :
    parseImportID s = Except.error "ID not of the form PROJECT_ID/ACTION_ID" ∧
    parseImportID (String.mk (a.data ++ '/' :: b.data))
      = (match ProjectIDFromString a, ActionIDFromString b with
         | (_, false), _ => Except.error "invalid project ID"
         | (_, true), (_, false) => Except.error "invalid action ID"
         | (projectID, true), (actionID, true) => Except.ok (projectID, actionID)) ∧
    parseImportID "42/7" = Except.ok (42, 7) ∧
    parseImportID "42" = Except.error "ID not of the form PROJECT_ID/ACTION_ID" := by
  refine ⟨?_, ?_, rfl, rfl⟩
  · simp only [parseImportID, splitN2Slash,
      splitFirstSlashAux_of_no_slash s.data [] hs]
  · have h2 : splitN2Slash (String.mk (a.data ++ '/' :: b.data)) = some (a, b) := by
      simp only [splitN2Slash]
      rw [splitFirstSlashAux_of_slash a.data b.data [] ha]
      rfl
    simp only [parseImportID, h2]
    rcases hA : ProjectIDFromString a with ⟨p, _ | _⟩ <;>
      rcases hB : ActionIDFromString b with ⟨q, _ | _⟩ <;> rfl

/-- Witness for `import_id_splits_on_first_slash` on the spec's examples. -/
theorem import_id_splits_on_first_slash_witness :
    parseImportID "42" = Except.error "ID not of the form PROJECT_ID/ACTION_ID" ∧
    parseImportID (String.mk ("42".data ++ '/' :: "7".data)) = Except.ok (42, 7) ∧
    parseImportID "42/7" = Except.ok (42, 7) := by
  obtain ⟨h1, h2, h3, h4⟩ :=
    import_id_splits_on_first_slash "42" "42" "7" (by decide) (by decide)
  exact ⟨h4, by rw [h2]; rfl, h3⟩

/-! ### Theorems for claim C8 -/

/-- C8: both create calls normalize absent (`nil`) list fields to empty
lists, not null, in the request they send — the action create normalizes its
tag and step lists, the project create its four list fields — while every
other payload field, and any non-nil list (for which `Option.getD` is the
identity), passes through unchanged. -/
theorem create_normalizes_nil_lists (projectID : Nat) (a : CreateActionRequest)
    (p : CreateProjectRequest) :
    ∃ a2 p2,
      (CreateActionGo projectID a).input = some a2 ∧
      (CreateProjectGo p).input = some p2 ∧
      a2.tags = some (a.tags.getD []) ∧
      a2.steps = some (a.steps.getD []) ∧
      a2.name = a.name ∧ a2.description = a.description ∧
      a2.postToSlack = a.postToSlack ∧ a2.slackMessageFormat = a.slackMessageFormat ∧
      p2.appURLs = some (p.appURLs.getD []) ∧
      p2.dataAttributes = some (p.dataAttributes.getD []) ∧
      p2.personDisplayNameProperties = some (p.personDisplayNameProperties.getD []) ∧
      p2.recordingDomains = some (p.recordingDomains.getD []) ∧
      p2.name = p.name ∧ p2.autocaptureOptOut = p.autocaptureOptOut ∧
      p2.timezone = p.timezone ∧ p2.slackIncomingWebhook = p.slackIncomingWebhook ∧
      p2.anonymizeIPs = p.anonymizeIPs ∧ p2.toolbarMode = p.toolbarMode ∧
      p2.capturePerformanceOptIn = p.capturePerformanceOptIn ∧
      p2.captureConsoleLogOptIn = p.captureConsoleLogOptIn ∧
      p2.sessionRecordingOptIn = p.sessionRecordingOptIn ∧
      p2.sessionRecordingVersion = p.sessionRecordingVersion ∧
      p2.accessControl = p.accessControl ∧
      p2.completedSnippetOnboarding = p.completedSnippetOnboarding := by
  refine ⟨_, _, rfl, rfl, ?_, ?_, rfl, rfl, rfl, rfl, ?_, ?_, ?_, ?_, rfl, rfl,
    rfl, rfl, rfl, rfl, rfl, rfl, rfl, rfl, rfl, rfl⟩
  · cases a.tags <;> rfl
  · cases a.steps <;> rfl
  · cases p.appURLs <;> rfl
  · cases p.dataAttributes <;> rfl
  · cases p.personDisplayNameProperties <;> rfl
  · cases p.recordingDomains <;> rfl

/-! ### Theorems for claim C10 -/

/-- C10 counterexample: on a failed action import parse, the `id` attribute
is written with `"0"` but `project_id` is never written, because the
`HasError` guard after the first attribute write returns early; and a failed
project import parse with a range error writes the maximum 64-bit value,
not `"0"`. -/
theorem import_state_partial_write_cex :
    actionImportState "abc"
      = { diagsHasError := true, attrId := some "0", attrProjectId := none } ∧
    projectImportState "18446744073709551616"
      = { diagsHasError := true, attrId := some "18446744073709551615" } :=
  ⟨rfl, rfl⟩

/-- C10 amended: when the import identifier fails to parse, both ImportState
implementations add an error diagnostic yet still write state: the action
resource writes `id` with `"0"` (the zero identifiers returned by
`parseImportID`) and then returns before writing `project_id`, while the
project resource writes `id` with the string rendering of whatever value the
failed parse returned (0 on a syntax error, 2^64 - 1 on a range error). -/
theorem import_state_writes_state_on_error (s t e : String)
    (hs : parseImportID s = Except.error e)
    (ht : (ProjectIDFromString t).2 = false) :
    actionImportState s
      = { diagsHasError := true, attrId := some "0", attrProjectId := none } ∧
    projectImportState t
      = { diagsHasError := true
          attrId := some (projectIDString (ProjectIDFromString t).1) } := by
  constructor
  · simp [actionImportState, hs]
    rfl
  · simp [projectImportState, ht]

/-- Witness for `import_state_writes_state_on_error` at concrete inputs. -/
theorem import_state_writes_state_on_error_witness :
    actionImportState "abc"
      = { diagsHasError := true, attrId := some "0", attrProjectId := none } ∧
    projectImportState "xyz" = { diagsHasError := true, attrId := some "0" } := by
  obtain ⟨h1, h2⟩ := import_state_writes_state_on_error "abc" "xyz" _ rfl rfl
  exact ⟨h1, by rw [h2]; rfl⟩

/-! ### Theorems for claim C6 -/

/-- C6: deleting an action issues exactly one PATCH update — never a true
DELETE — carrying the complete action object rebuilt from state with its
`deleted` flag set to true, with the project and action identifiers embedded
in the request path; the remote response body is discarded, so the outcome
does not depend on it. -/
theorem delete_is_soft_patch (data : ActionResourceModel) (projectID : Nat)
    (action : GoAction)
    (h : actionFromModel data = Except.ok (projectID, action)) :
    actionResourceDeleteRequest data
      = Except.ok (UpdateActionGo projectID { action with deleted := true }) ∧
    (UpdateActionGo projectID { action with deleted := true }).method = "PATCH" ∧
    (UpdateActionGo projectID { action with deleted := true }).method ≠ "DELETE" ∧
    (UpdateActionGo projectID { action with deleted := true }).path
      = "/projects/" ++ projectIDString projectID ++ "/actions/"
        ++ actionIDString action.id ∧
    (∃ sent, (UpdateActionGo projectID { action with deleted := true }).input = some sent
      ∧ sent.deleted = true ∧ sent.id = action.id ∧ sent.name = action.name
      ∧ sent.description = action.description
      ∧ sent.tags = nilSliceToEmpty action.tags
      ∧ sent.steps = nilSliceToEmpty action.steps) ∧
    (∀ resp1 resp2 : HttpResponse, resp1.statusCode = 200 → resp2.statusCode = 200 →
      actionResourceDelete data resp1 = Except.ok ()
        ∧ actionResourceDelete data resp1 = actionResourceDelete data resp2) := by
  refine ⟨?_, rfl, show ("PATCH" : String) ≠ "DELETE" by decide, rfl,
    ⟨_, rfl, rfl, rfl, rfl, rfl, rfl, rfl⟩, ?_⟩
  · simp only [actionResourceDeleteRequest, h]
  · intro resp1 resp2 h1 h2
    constructor <;>
      simp [actionResourceDelete, h, clientDo, UpdateActionGo, h1, h2]

/-- Witness for `delete_is_soft_patch` on `sampleActionState`. -/
theorem delete_is_soft_patch_witness :
    actionResourceDelete sampleActionState ⟨200, "discarded body"⟩ = Except.ok () ∧
    actionResourceDelete sampleActionState ⟨200, "discarded body"⟩
      = actionResourceDelete sampleActionState ⟨200, "another body"⟩ ∧
    (actionResourceDeleteRequest sampleActionState).map (fun r => r.method)
      = Except.ok "PATCH" ∧
    (actionResourceDeleteRequest sampleActionState).map (fun r => r.path)
      = Except.ok "/projects/42/actions/5" ∧
    (actionResourceDeleteRequest sampleActionState).map
        (fun r => r.input.map (fun sent => sent.deleted))
      = Except.ok (some true) := by
  obtain ⟨h1, h2, h3, h4, h5, h6⟩ := delete_is_soft_patch sampleActionState 42 _ rfl
  refine ⟨(h6 ⟨200, "discarded body"⟩ ⟨200, "another body"⟩ rfl rfl).1,
    (h6 ⟨200, "discarded body"⟩ ⟨200, "another body"⟩ rfl rfl).2, ?_, ?_, ?_⟩
  · rw [h1]; rfl
  · rw [h1]; rfl
  · rw [h1]; rfl

/-! ### Theorems for claim C7 -/

/-- Helper: the comparison used by `sortedStrings` is transitive. -/
theorem stringLe_trans (a b c : String) (h1 : decide (a ≤ b) = true)
    (h2 : decide (b ≤ c) = true) : decide (a ≤ c) = true :=
  decide_eq_true (le_trans (of_decide_eq_true h1) (of_decide_eq_true h2))

/-- Helper: the comparison used by `sortedStrings` is total. -/
theorem stringLe_total (a b : String) :
    (decide (a ≤ b) || decide (b ≤ a)) = true := by
  rcases le_total a b with h | h <;> simp [h]

/-- Helper: `sortedStrings` sorts its input. -/
theorem sortedStrings_sorted (l : List String) :
    List.Sorted (fun a b : String => a ≤ b) (sortedStrings l) := by
  have h := @List.sorted_mergeSort String (fun a b : String => decide (a ≤ b))
    stringLe_trans stringLe_total l
  exact h.imp fun hab => of_decide_eq_true hab

/-- Helper: sorting a list that is already sorted changes nothing. -/
theorem sortedStrings_of_sorted (m : List String)
    (hm : List.Sorted (fun a b : String => a ≤ b) m) : sortedStrings m = m :=
  List.mergeSort_of_sorted (hm.imp fun hab => decide_eq_true hab)

/-- Helper: permuting the input does not change the sorted output. -/
theorem sortedStrings_eq_of_perm (l l2 : List String) (hp : l.Perm l2) :
    sortedStrings l = sortedStrings l2 := by
  have h1 : (sortedStrings l).Perm (sortedStrings l2) :=
    ((l.mergeSort_perm _).trans hp).trans (l2.mergeSort_perm _).symm
  exact List.eq_of_perm_of_sorted h1 (sortedStrings_sorted l) (sortedStrings_sorted l2)

/-- C7: the lexicographic normalization applied to tags and to the project
list settings is idempotent and order-independent: sorting an already-sorted
list is a no-op (so in particular sorting twice equals sorting once), and any
permutation of the input sorts to the identical output. -/
theorem sort_normalization_canonical (l l2 m : List String)
    (hperm : l.Perm l2) (hm : List.Sorted (fun a b : String => a ≤ b) m) :
    sortedStrings (sortedStrings l) = sortedStrings l ∧
    sortedStrings l = sortedStrings l2 ∧
    sortedStrings m = m :=
  ⟨sortedStrings_of_sorted _ (sortedStrings_sorted l),
   sortedStrings_eq_of_perm l l2 hperm,
   sortedStrings_of_sorted m hm⟩

/-- Witness for `sort_normalization_canonical` on concrete lists. -/
theorem sort_normalization_canonical_witness :
    sortedStrings (sortedStrings ["b", "a", "c"]) = sortedStrings ["b", "a", "c"] ∧
    sortedStrings ["b", "a", "c"] = sortedStrings ["c", "b", "a"] ∧
    sortedStrings ["a", "a"] = ["a", "a"] :=
  sort_normalization_canonical ["b", "a", "c"] ["c", "b", "a"] ["a", "a"]
    (by decide) (by simp)

/-! ### Theorems for claim C1 -/

/-- Helper: the step partition distributes over concatenation. -/
theorem partitionSteps_append (l1 l2 : List ActionStep) :
    partitionSteps (l1 ++ l2)
      = ((partitionSteps l1).1 ++ (partitionSteps l2).1,
         (partitionSteps l1).2.1 ++ (partitionSteps l2).2.1,
         (partitionSteps l1).2.2 ++ (partitionSteps l2).2.2) := by
  induction l1 with
  | nil => simp [partitionSteps]
  | cons s rest ih =>
    simp only [List.cons_append, partitionSteps]
    by_cases h1 : s.event = "$autocapture"
    · simp [h1, ih]
    · by_cases h2 : s.event = "$pageview" <;> simp [h1, h2, ih]

/-- Helper: partitioning custom-event steps fills only the first list, in
order. -/
theorem partitionSteps_customs (l : List ActionStep)
    (h : ∀ s ∈ l, isCustomEventStep s) :
    partitionSteps l = (l.map customOfStep, [], []) := by
  induction l with
  | nil => rfl
  | cons s rest ih =>
    obtain ⟨h1, h2⟩ := h s (by simp)
    simp only [partitionSteps, List.map_cons, ih fun d hd => h d (by simp [hd]),
      if_neg h1, if_neg h2]

/-- Helper: partitioning page-view steps fills only the second list, in
order. -/
theorem partitionSteps_pageViews (l : List ActionStep)
    (h : ∀ s ∈ l, isPageViewStep s) :
    partitionSteps l = ([], l.map pageViewOfStep, []) := by
  induction l with
  | nil => rfl
  | cons s rest ih =>
    have h2 : s.event = "$pageview" := h s (by simp)
    have h1 : ¬ s.event = "$autocapture" := by rw [h2]; decide
    simp only [partitionSteps, List.map_cons, ih fun d hd => h d (by simp [hd]),
      if_neg h1, if_pos h2]

/-- Helper: partitioning autocapture steps fills only the third list, in
order. -/
theorem partitionSteps_autocaptures (l : List ActionStep)
    (h : ∀ s ∈ l, isAutocaptureStep s) :
    partitionSteps l = ([], [], l.map autocaptureOfStep) := by
  induction l with
  | nil => rfl
  | cons s rest ih =>
    have h1 : s.event = "$autocapture" := h s (by simp)
    simp only [partitionSteps, List.map_cons, ih fun d hd => h d (by simp [hd]),
      if_pos h1]

/-- Helper: a custom-event step with only its shape's fields set survives the
local round trip. -/
theorem customEventStep_ofStep (s : ActionStep) (h : customEventStepFields s) :
    customEventStep (customOfStep s) = s := by
  obtain ⟨h1, h2, h3, h4, h5, h6, h7⟩ := h
  cases s
  simp_all [customEventStep, customOfStep]

/-- Helper: a page-view step with only its shape's fields set survives the
local round trip. -/
theorem pageViewStep_ofStep (s : ActionStep) (hev : isPageViewStep s)
    (h : pageViewStepFields s) : pageViewStep (pageViewOfStep s) = s := by
  obtain ⟨h1, h2, h3, h4, h5⟩ := h
  cases s
  simp_all [pageViewStep, pageViewOfStep, isPageViewStep]

/-- Helper: an autocapture step survives the local round trip. -/
theorem autocaptureStep_ofStep (s : ActionStep) (hev : isAutocaptureStep s) :
    autocaptureStep (autocaptureOfStep s) = s := by
  cases s
  simp_all [autocaptureStep, autocaptureOfStep, isAutocaptureStep]

/-- C1 counterexample: the flat list made of the single custom-event step
`customStepWithURL` already follows the custom, page-view, autocapture
ordering convention, yet partitioning it into the local lists and
re-flattening drops its URL matcher, so the result is not equal to the
original up to any reordering. -/
theorem steps_round_trip_cex :
    isCustomEventStep customStepWithURL ∧
    ¬ (stepsRoundTrip [customStepWithURL]).Perm [customStepWithURL] := by
  refine ⟨⟨by decide, by decide⟩, fun hperm => ?_⟩
  have heq := List.perm_singleton.mp hperm
  exact absurd heq (by decide)

/-- C1 amended: partitioning a flat step list into the three local lists and
re-flattening (custom events, then page views, then autocaptures) returns
exactly the original list — all step fields surviving — whenever the original
followed that ordering convention AND each step carries only the fields its
discriminator's local shape keeps (custom-event steps no matchers or
selector, page-view steps no text/href matchers or selector); without the
latter condition the round trip drops the unrepresentable fields, as
`steps_round_trip_cex` shows. -/
theorem steps_round_trip_id (customs pageViews autocaptures : List ActionStep)
    (hc : ∀ s ∈ customs, isCustomEventStep s ∧ customEventStepFields s)
    (hp : ∀ s ∈ pageViews, isPageViewStep s ∧ pageViewStepFields s)
    (ha : ∀ s ∈ autocaptures, isAutocaptureStep s) :
    stepsRoundTrip (customs ++ (pageViews ++ autocaptures))
      = customs ++ (pageViews ++ autocaptures) := by
  have h1 := partitionSteps_customs customs fun s hs => (hc s hs).1
  have h2 := partitionSteps_pageViews pageViews fun s hs => (hp s hs).1
  have h3 := partitionSteps_autocaptures autocaptures ha
  have e1 : customs.map (fun s => customEventStep (customOfStep s)) = customs :=
    (List.map_congr_left fun s hs => customEventStep_ofStep s (hc s hs).2).trans
      customs.map_id
  have e2 : pageViews.map (fun s => pageViewStep (pageViewOfStep s)) = pageViews :=
    (List.map_congr_left fun s hs =>
        pageViewStep_ofStep s (hp s hs).1 (hp s hs).2).trans
      pageViews.map_id
  have e3 : autocaptures.map (fun s => autocaptureStep (autocaptureOfStep s))
      = autocaptures :=
    (List.map_congr_left fun s hs => autocaptureStep_ofStep s (ha s hs)).trans
      autocaptures.map_id
  simp only [stepsRoundTrip, partitionSteps_append, h1, h2, h3, flattenSteps,
    List.nil_append, List.append_nil, List.map_map, Function.comp_def, e1, e2, e3,
    List.append_assoc]

/-- Witness for `steps_round_trip_id` on one step of each shape. -/
theorem steps_round_trip_id_witness :
    stepsRoundTrip
        ([sampleCustomStep] ++ ([samplePageViewStep] ++ [sampleAutocaptureStep]))
      = [sampleCustomStep] ++ ([samplePageViewStep] ++ [sampleAutocaptureStep]) :=
  steps_round_trip_id [sampleCustomStep] [samplePageViewStep]
    [sampleAutocaptureStep] (by decide) (by decide) (by decide)

/-! ### Theorems for claim C4 -/

/-- Helper: digit characters have code points between 48 and 57. -/
theorem isDigit_toNat_bounds (c : Char) (h : c.isDigit = true) :
    48 ≤ c.toNat ∧ c.toNat ≤ 57 := by
  simp only [Char.isDigit, Bool.and_eq_true, decide_eq_true_eq] at h
  exact ⟨UInt32.le_toNat_of_le (by decide) h.1, UInt32.toNat_le_of_le (by decide) h.2⟩

/-- Helper: the value of a digit character is below ten. -/
theorem isDigit_sub_lt (c : Char) (h : c.isDigit = true) : c.toNat - 48 < 10 := by
  have := isDigit_toNat_bounds c h
  omega

/-- Helper: a digit character rebuilt from its digit value is itself. -/
theorem ofNat_digit_toNat (c : Char) (h : c.isDigit = true) :
    Char.ofNat (48 + (c.toNat - 48)) = c := by
  have hb := isDigit_toNat_bounds c h
  have he : 48 + (c.toNat - 48) = c.toNat := by omega
  rw [he, Char.ofNat_toNat]

/-- Helper: the character of a decimal digit decodes back to the digit. -/
theorem digitChar_toNat (m : Nat) (h : m < 10) :
    (Char.ofNat (48 + m)).toNat = 48 + m := by
  interval_cases m <;> decide

/-- Helper: the character of a decimal digit is a digit character. -/
theorem digitChar_isDigit (m : Nat) (h : m < 10) :
    (Char.ofNat (48 + m)).isDigit = true := by
  interval_cases m <;> decide

/-- Helper: any fuel above the value yields the same digits. -/
theorem natToDigitsAux_irrel (fuel : Nat) : ∀ (fuel2 n : Nat), n < fuel →
    n < fuel2 → natToDigitsAux fuel n = natToDigitsAux fuel2 n := by
  induction fuel with
  | zero => intro fuel2 n h _; omega
  | succ fuel ih =>
    intro fuel2 n h h2
    cases fuel2 with
    | zero => omega
    | succ fuel2 =>
      simp only [natToDigitsAux]
      by_cases h10 : n < 10
      · simp [h10]
      · have hdiv : n / 10 < n := Nat.div_lt_self (by omega) (by omega)
        rw [if_neg h10, if_neg h10, ih fuel2 (n / 10) (by omega) (by omega)]

/-- Helper: the recursion equation of `natToDigits`, fuel eliminated. -/
theorem natToDigits_eq (n : Nat) :
    natToDigits n = if n < 10 then [Char.ofNat (48 + n)]
      else natToDigits (n / 10) ++ [Char.ofNat (48 + n % 10)] := by
  rw [show natToDigits n = if n < 10 then [Char.ofNat (48 + n)]
    else natToDigitsAux n (n / 10) ++ [Char.ofNat (48 + n % 10)] from rfl]
  by_cases h10 : n < 10
  · simp [h10]
  · have hdiv : n / 10 < n := Nat.div_lt_self (by omega) (by omega)
    rw [if_neg h10, if_neg h10]
    congr 1
    show natToDigitsAux n (n / 10) = natToDigitsAux (n / 10 + 1) (n / 10)
    exact natToDigitsAux_irrel n (n / 10 + 1) (n / 10) (by omega) (by omega)

/-- Helper: the decimal rendering is never empty. -/
theorem natToDigits_ne_nil (n : Nat) : natToDigits n ≠ [] := by
  rw [natToDigits_eq]
  by_cases h10 : n < 10 <;> simp [h10]

/-- Helper: every character of the decimal rendering is a digit. -/
theorem natToDigits_all_digit (n : Nat) :
    ∀ c ∈ natToDigits n, c.isDigit = true := by
  induction n using Nat.strong_induction_on with
  | _ n ih =>
    rw [natToDigits_eq]
    by_cases h10 : n < 10
    · simp only [if_pos h10, List.mem_singleton]
      rintro c rfl
      exact digitChar_isDigit n h10
    · have hdiv : n / 10 < n := Nat.div_lt_self (by omega) (by omega)
      simp only [if_neg h10, List.mem_append, List.mem_singleton]
      rintro c (hc | rfl)
      · exact ih (n / 10) hdiv c hc
      · exact digitChar_isDigit (n % 10) (Nat.mod_lt _ (by omega))

/-- Helper: the digit fold never shrinks its accumulator. -/
theorem le_digitsVal (l : List Char) : ∀ n : Nat, n ≤ digitsVal n l := by
  induction l with
  | nil => intro n; exact Nat.le_refl n
  | cons c rest ih =>
    intro n
    show n ≤ digitsVal (n * 10 + (c.toNat - 48)) rest
    exact le_trans (by omega) (ih _)

/-- Helper: the digit fold splits over concatenation. -/
theorem digitsVal_append (n : Nat) (l1 l2 : List Char) :
    digitsVal n (l1 ++ l2) = digitsVal (digitsVal n l1) l2 := by
  simp [digitsVal]

/-- Helper: folding over the rendered digits recovers the value. -/
theorem digitsVal_natToDigits (n : Nat) : digitsVal 0 (natToDigits n) = n := by
  induction n using Nat.strong_induction_on with
  | _ n ih =>
    rw [natToDigits_eq]
    by_cases h10 : n < 10
    · simp only [if_pos h10]
      show 0 * 10 + ((Char.ofNat (48 + n)).toNat - 48) = n
      rw [digitChar_toNat n h10]
      omega
    · have hdiv : n / 10 < n := Nat.div_lt_self (by omega) (by omega)
      simp only [if_neg h10, digitsVal_append, ih (n / 10) hdiv]
      show (n / 10) * 10 + ((Char.ofNat (48 + n % 10)).toNat - 48) = n
      rw [digitChar_toNat (n % 10) (Nat.mod_lt _ (by omega))]
      omega

/-- Helper: the `ParseUint` scan computes the digit fold when every character
is a digit and the value fits 64 bits (so no prefix overflows either). -/
theorem goParseUint64Aux_digits (l : List Char) : ∀ n : Nat,
    (∀ c ∈ l, c.isDigit = true) → digitsVal n l < 2 ^ 64 →
    goParseUint64Aux n l = (digitsVal n l, true) := by
  induction l with
  | nil => intro n _ _; rfl
  | cons c rest ih =>
    intro n hd hb
    have hc : c.isDigit = true := hd c (by simp)
    have hstep : digitsVal n (c :: rest)
        = digitsVal (n * 10 + (c.toNat - 48)) rest := rfl
    have hlt : n * 10 + (c.toNat - 48) < 2 ^ 64 := by
      have := le_digitsVal rest (n * 10 + (c.toNat - 48))
      rw [hstep] at hb
      omega
    simp only [goParseUint64Aux, if_pos hc,
      if_neg (by omega : ¬ n * 10 + (c.toNat - 48) ≥ 2 ^ 64)]
    rw [hstep]
    exact ih _ (fun d hdm => hd d (by simp [hdm])) (hstep ▸ hb)

/-- Helper: parsing the decimal rendering of a 64-bit value succeeds and
returns the value. -/
theorem goParseUint64_formatUint (n : Nat) (h : n < 2 ^ 64) :
    goParseUint64 (formatUint n) = (n, true) := by
  have hdata : (formatUint n).data = natToDigits n := rfl
  simp only [goParseUint64, hdata, if_neg (natToDigits_ne_nil n)]
  rw [goParseUint64Aux_digits (natToDigits n) 0 (natToDigits_all_digit n)
    (by rw [digitsVal_natToDigits]; exact h), digitsVal_natToDigits]

/-- Helper: a nonempty all-digit character list without a leading zero is the
decimal rendering of its value. -/
theorem natToDigits_digitsVal (l : List Char) :
    l ≠ [] → (∀ c ∈ l, c.isDigit = true) → (l.head? = some '0' → l = ['0']) →
    natToDigits (digitsVal 0 l) = l := by
  induction l using List.reverseRecOn with
  | nil => intro hne _ _; exact absurd rfl hne
  | append_singleton l1 c ih =>
    intro _ hd hz
    have hc : c.isDigit = true := hd c (by simp)
    have hd10 : c.toNat - 48 < 10 := isDigit_sub_lt c hc
    rcases eq_or_ne l1 [] with h1 | h1
    · subst h1
      have hval : digitsVal 0 ([] ++ [c]) = c.toNat - 48 := by
        show 0 * 10 + (c.toNat - 48) = c.toNat - 48
        omega
      rw [hval, natToDigits_eq, if_pos hd10, ofNat_digit_toNat c hc]
      rfl
    · obtain ⟨c0, l1tl, rfl⟩ := List.exists_cons_of_ne_nil h1
      have hc0 : c0.isDigit = true := hd c0 (by simp)
      have hc0ne : c0 ≠ '0' := by
        intro h0
        have hone := hz (by simp [h0])
        have hlen := congrArg List.length hone
        simp [List.length_append] at hlen
      have hc0pos : 1 ≤ c0.toNat - 48 := by
        have hb0 := isDigit_toNat_bounds c0 hc0
        have h48 : c0.toNat ≠ 48 := by
          intro h48
          apply hc0ne
          calc c0 = Char.ofNat c0.toNat := (Char.ofNat_toNat c0).symm
            _ = '0' := by rw [h48]
        omega
      have hv1 : 1 ≤ digitsVal 0 (c0 :: l1tl) := by
        have hle := le_digitsVal l1tl (0 * 10 + (c0.toNat - 48))
        have hs : digitsVal 0 (c0 :: l1tl)
            = digitsVal (0 * 10 + (c0.toNat - 48)) l1tl := rfl
        rw [hs]
        omega
      have hval : digitsVal 0 ((c0 :: l1tl) ++ [c])
          = digitsVal 0 (c0 :: l1tl) * 10 + (c.toNat - 48) := by
        rw [digitsVal_append]
        rfl
      have hge : ¬ digitsVal 0 ((c0 :: l1tl) ++ [c]) < 10 := by
        rw [hval]
        omega
      have hdiv : (digitsVal 0 (c0 :: l1tl) * 10 + (c.toNat - 48)) / 10
          = digitsVal 0 (c0 :: l1tl) := by omega
      have hmod : (digitsVal 0 (c0 :: l1tl) * 10 + (c.toNat - 48)) % 10
          = c.toNat - 48 := by omega
      rw [natToDigits_eq, if_neg hge, hval, hdiv, hmod,
        ofNat_digit_toNat c hc,
        ih h1 (fun d hdm => hd d (by
          rcases List.mem_cons.mp hdm with h | h
          · exact List.mem_cons.mpr (Or.inl h)
          · exact List.mem_cons.mpr (Or.inr (List.mem_append_left _ h))))
          (fun h0 => absurd (by simpa using h0) hc0ne)]

/-- C4 counterexample: `"007"` is a valid decimal string — the identifier
parser accepts it, returning 7 — but formatting the parsed value yields
`"7"`, not `"007"`, so format-after-parse is not the identity on all valid
decimal strings. -/
theorem id_format_parse_cex :
    ProjectIDFromString "007" = (7, true) ∧ projectIDString 7 = "7" ∧
    projectIDString (ProjectIDFromString "007").1 ≠ "007" := by
  refine ⟨rfl, rfl, ?_⟩
  decide

/-- C4 amended: for both ProjectID and ActionID, parsing the decimal
rendering of any 64-bit identifier returns the identifier; formatting the
parsed value returns the original string for every canonical decimal string
(nonempty, all digits, no leading zero — without the last condition `"007"`
is a counterexample — and within 64 bits); and the parse fails with an error
on non-digit input such as `"abc"`, `"-1"` and `"12a"`, and on overflow
beyond 64 bits. -/
theorem id_round_trip (n : Nat) (s : String) (hn : n < 2 ^ 64)
    (hne : s.data ≠ []) (hd : ∀ c ∈ s.data, c.isDigit = true)
    (hz : s.data.head? = some '0' → s.data = ['0'])
    (hb : digitsVal 0 s.data < 2 ^ 64) :
    ProjectIDFromString (projectIDString n) = (n, true) ∧
    ActionIDFromString (actionIDString n) = (n, true) ∧
    (ProjectIDFromString s).2 = true ∧
    projectIDString (ProjectIDFromString s).1 = s ∧
    actionIDString (ActionIDFromString s).1 = s ∧
    ProjectIDFromString "abc" = (0, false) ∧
    ActionIDFromString "abc" = (0, false) ∧
    ProjectIDFromString "-1" = (0, false) ∧
    ProjectIDFromString "12a" = (0, false) ∧
    ProjectIDFromString "18446744073709551616" = (2 ^ 64 - 1, false) := by
  have hparse : goParseUint64 s = (digitsVal 0 s.data, true) := by
    simp only [goParseUint64, if_neg hne]
    exact goParseUint64Aux_digits s.data 0 hd hb
  have hfmt : formatUint (digitsVal 0 s.data) = s := by
    show String.mk (natToDigits (digitsVal 0 s.data)) = s
    rw [natToDigits_digitsVal s.data hne hd hz]
  refine ⟨goParseUint64_formatUint n hn, goParseUint64_formatUint n hn,
    ?_, ?_, ?_, rfl, rfl, rfl, rfl, rfl⟩
  · show (goParseUint64 s).2 = true
    rw [hparse]
  · show formatUint (goParseUint64 s).1 = s
    rw [hparse]
    exact hfmt
  · show formatUint (goParseUint64 s).1 = s
    rw [hparse]
    exact hfmt

/-- Witness for `id_round_trip` at identifier 42 and string `"37"`. -/
theorem id_round_trip_witness :
    ProjectIDFromString (projectIDString 42) = (42, true) ∧
    projectIDString (ProjectIDFromString "37").1 = "37" ∧
    ProjectIDFromString "abc" = (0, false) := by
  obtain ⟨h1, _, _, h4, _, h6, _, _, _, _⟩ :=
    id_round_trip 42 "37" (by omega) (by decide) (by decide) (by decide)
      (by decide)
  exact ⟨h1, h4, h6⟩

end PosthogProvider
